import Mathlib

/-!
Verification of the dataset-loader repository (seacrowd sea_datasets).

Shallow embedding of the four loaders' generation procedures:

* `cc3m_35l.py` — the streaming join-and-resequence procedure
  (`CC3M35L._generate_examples`) and the per-row image fetch
  (`CC3M35L.fill_img_path`);
* `indonesian_madurese_bible_translation.py` — the split builder
  (`_split_generators`, which tab-splits corpus lines) and `_generate_examples`;
* `vicon.py` — `ViConDataset._generate_examples` (including the Python
  dict-literal semantics of the duplicated "text_1" key);
* `uit_vicov19qa.py` — `ViHealthQADataset._generate_examples`.

Python strings are Lean `String`s except where a claim is about character-level
splitting (the Madurese loader), where lines are `List Char`.  Python `int` is
`Int` (the cc3m output index starts at -1) or `Nat` where the source value is
a count.  Fallible operations (`json`-side-table lookup raising KeyError,
`split("\t")[1]` raising IndexError, a download raising) are `Except`/`Option`.
-/

/-! ## CC3M-35L: data model (cc3m_35l.py) -/

/-- One decoded line of the translation stream (the fields
`_generate_examples` reads from `row = json.loads(line)`). -/
structure StreamRec where
  trg_lang : String
  rec_num : Nat
  caption_tokenized : String
  translation_tokenized : String
  backtranslation_tokenized : String
deriving DecidableEq, Repr

/-- A raw line as the generator's `split_handler.readline().strip()` sees it:
either blank (empty after stripping — also the value read at end of file) or a
JSON record.  Lines whose JSON decoding would itself fail are outside the
claims and not modelled. -/
inductive Line where
  | blank : Line
  | entry (r : StreamRec) : Line
deriving DecidableEq, Repr

def Line.isBlank : Line → Bool
  | .blank => true
  | .entry _ => false

/-- Schemas of the cc3m configs (`BUILDER_CONFIGS` only builds these two; any
other schema string makes `_generate_examples` raise ValueError). -/
inductive CC3MSchema where
  | source
  | seacrowd_imtext
deriving DecidableEq, Repr

structure CC3MConfig where
  schema : CC3MSchema
  subset_id : String
deriving DecidableEq, Repr

/-- Python `str.split(sep)` for a one-character separator, on the string's
character list: `"" -> [""]`, adjacent separators give empty parts. -/
def pySplitOn (sep : Char) : List Char → List (List Char)
  | [] => [[]]
  | c :: rest =>
    match pySplitOn sep rest with
    | [] => []
    | h :: t => if c = sep then [] :: h :: t else (c :: h) :: t

/-- `self.config.subset_id.split("_")[2]` (e.g. "cc3m_35l_vie" -> "vie"). -/
def CC3MConfig.subsetLang (cfg : CC3MConfig) : String :=
  ((pySplitOn '_' cfg.subset_id.data).getD 2 []).asString

/-- `LANGUAGE_MAP` of cc3m_35l.py. -/
def LANGUAGE_MAP : List (String × String) :=
  [("fil", "fil"), ("ind", "id"), ("tha", "th"), ("vie", "vi")]

/-- The side table `gcc_df`: 1-based position -> (caption, img_url); `none`
models a missing index (pandas `.loc` raises KeyError there). -/
def SideTable : Type := Nat → Option (String × String)

/-- Output record of the source schema branch of `_generate_examples`. -/
structure SourceRec where
  id : String
  image_paths : String
  src_lang : String
  caption_tokenized : String
  trg_lang : String
  translation_tokenized : String
  backtranslation_tokenized : String
deriving DecidableEq, Repr

/-- Output record of the seacrowd_imtext schema branch. -/
structure ImtextRec where
  id : String
  image_paths : List String
  texts : String
  metadata_context : Option String
  metadata_labels : Option String
deriving DecidableEq, Repr

inductive CRecord where
  | source (r : SourceRec) : CRecord
  | imtext (r : ImtextRec) : CRecord
deriving DecidableEq, Repr

/-- Building `c_data` for the freshly incremented index `idx` (cc3m_35l.py
lines 208-228). -/
def mkCData (cfg : CC3MConfig) (idx : Int) (img_url : String) (r : StreamRec) : CRecord :=
  match cfg.schema with
  | .source => .source
      { id := toString idx
        image_paths := img_url
        src_lang := "en"
        caption_tokenized := r.caption_tokenized
        trg_lang := cfg.subsetLang
        translation_tokenized := r.translation_tokenized
        backtranslation_tokenized := r.backtranslation_tokenized }
  | .seacrowd_imtext => .imtext
      { id := toString idx
        image_paths := [img_url]
        texts := r.translation_tokenized
        metadata_context := none
        metadata_labels := none }

/-- What one run of the generator body produces: the `yield`ed (key, example)
pairs, and the final `return idx, c_data` value (the last pending record with
the current identifier — returned, not yielded). -/
structure GenOut where
  yields : List (Int × CRecord)
  finalIdx : Int
  finalPending : Option CRecord
deriving DecidableEq, Repr

/-- The loop of `CC3M35L._generate_examples` over the remaining lines of the
stream, carrying the output index `idx` (initially -1) and the pending record
`c_data` (initially None).  A blank/end-of-stream line returns the pending
state; a record of another language is skipped by `continue`; an accepted
record looks its `rec_num` up in the side table (KeyError when absent), yields
the previous pending record, increments `idx` and makes the new record
pending. -/
def genLoop (cfg : CC3MConfig) (df : SideTable) (lang : String) :
    List Line → Int → Option CRecord → Except String GenOut
  | [], idx, c_data => .ok ⟨[], idx, c_data⟩
  | .blank :: _, idx, c_data => .ok ⟨[], idx, c_data⟩
  | .entry r :: rest, idx, c_data =>
    if r.trg_lang ≠ lang then
      genLoop cfg df lang rest idx c_data
    else
      match df r.rec_num with
      | none => .error "KeyError"
      | some row =>
        let idx' := idx + 1
        match genLoop cfg df lang rest idx' (some (mkCData cfg idx' row.2 r)) with
        | .error e => .error e
        | .ok out =>
            .ok ⟨(match c_data with
                  | some p => [(idx, p)]
                  | none => []) ++ out.yields,
                 out.finalIdx, out.finalPending⟩

/-- The records the procedure hands out of one run: the yielded pairs followed
by the final returned marker. -/
def outputs (g : GenOut) : List (Int × CRecord) :=
  g.yields ++ (match g.finalPending with
               | some r => [(g.finalIdx, r)]
               | none => [])

def outIds (g : GenOut) : List Int := (outputs g).map Prod.fst

/-- The stream records the language filter accepts before processing stops at
the first blank line (or end of stream). -/
def acceptedRecs (lang : String) (lines : List Line) : List StreamRec :=
  ((lines.takeWhile fun l => !l.isBlank).filterMap fun l =>
      match l with
      | .blank => none
      | .entry r => some r).filter fun r => r.trg_lang = lang

/-! ### The stateful stream handler

`split_handler` is a text file whose contents are `past.reverse ++ future`:
`readline` pops the head of `future` onto `past` (at end of file it returns the
blank line without consuming anything) and `seek(0)` moves everything back into
`future`.  `genRun` is `_generate_examples` run against this handler; it
returns the produced `GenOut` together with the handler's final
(past, future) state. -/
def genRun (cfg : CC3MConfig) (df : SideTable) (lang : String) :
    List Line → List Line → Int → Option CRecord →
    Except String (GenOut × List Line × List Line)
  | past, [], idx, c_data => .ok (⟨[], idx, c_data⟩, [], past.reverse)
  | past, .blank :: fs, idx, c_data =>
      .ok (⟨[], idx, c_data⟩, [], past.reverse ++ .blank :: fs)
  | past, .entry r :: fs, idx, c_data =>
    if r.trg_lang ≠ lang then
      genRun cfg df lang (.entry r :: past) fs idx c_data
    else
      match df r.rec_num with
      | none => .error "KeyError"
      | some row =>
        let idx' := idx + 1
        match genRun cfg df lang (.entry r :: past) fs idx' (some (mkCData cfg idx' row.2 r)) with
        | .error e => .error e
        | .ok (out, p', f') =>
            .ok (⟨(match c_data with
                   | some p => [(idx, p)]
                   | none => []) ++ out.yields,
                  out.finalIdx, out.finalPending⟩, p', f')

/-! ## CC3M-35L: characterization lemmas -/

theorem acceptedRecs_nil (lang : String) : acceptedRecs lang [] = [] := rfl

theorem acceptedRecs_blank (lang : String) (ls : List Line) :
    acceptedRecs lang (Line.blank :: ls) = [] := rfl

theorem acceptedRecs_entry (lang : String) (r : StreamRec) (ls : List Line) :
    acceptedRecs lang (Line.entry r :: ls) =
      if r.trg_lang = lang then r :: acceptedRecs lang ls else acceptedRecs lang ls := by
  by_cases h : r.trg_lang = lang <;>
    simp [acceptedRecs, Line.isBlank, List.filter, h]

/-- The identifiers `i, i+1, ..., i+k-1`. -/
def idsFrom (i : Int) (k : Nat) : List Int :=
  (List.range k).map fun (j : Nat) => i + (j : Int)

theorem idsFrom_zero (i : Int) : idsFrom i 0 = [] := rfl

theorem idsFrom_succ (i : Int) (k : Nat) :
    idsFrom i (k + 1) = i :: idsFrom (i + 1) k := by
  unfold idsFrom
  rw [List.range_succ_eq_map, List.map_cons, List.map_map]
  congr 1
  · simp
  · refine List.map_congr_left fun j _ => ?_
    simp only [Function.comp_apply]
    push_cast
    ring

/-- Unfolding of `genLoop` at a record line (the structural equation, stated
once so later proofs can rewrite with it). -/
theorem genLoop_entry (cfg : CC3MConfig) (df : SideTable) (lang : String)
    (r : StreamRec) (rest : List Line) (idx : Int) (c : Option CRecord) :
    genLoop cfg df lang (.entry r :: rest) idx c =
      if r.trg_lang ≠ lang then genLoop cfg df lang rest idx c
      else
        match df r.rec_num with
        | none => .error "KeyError"
        | some row =>
          match genLoop cfg df lang rest (idx + 1) (some (mkCData cfg (idx + 1) row.2 r)) with
          | .error e => .error e
          | .ok out =>
              .ok ⟨(match c with
                    | some p => [(idx, p)]
                    | none => []) ++ out.yields,
                   out.finalIdx, out.finalPending⟩ := rfl

/-- `genLoop` at an accepted record whose side-table lookup misses. -/
theorem genLoop_entry_miss (cfg : CC3MConfig) (df : SideTable) (lang : String)
    (q : StreamRec) (rest : List Line) (idx : Int) (c : Option CRecord)
    (hq : q.trg_lang = lang) (hdf : df q.rec_num = none) :
    genLoop cfg df lang (.entry q :: rest) idx c = .error "KeyError" := by
  rw [genLoop_entry, if_neg (by simp [hq]), hdf]

/-- `genLoop` at an accepted record whose side-table lookup succeeds. -/
theorem genLoop_entry_acc (cfg : CC3MConfig) (df : SideTable) (lang : String)
    (q : StreamRec) (rest : List Line) (idx : Int) (c : Option CRecord)
    (row : String × String) (hq : q.trg_lang = lang)
    (hdf : df q.rec_num = some row) :
    genLoop cfg df lang (.entry q :: rest) idx c =
      match genLoop cfg df lang rest (idx + 1) (some (mkCData cfg (idx + 1) row.2 q)) with
      | .error e => .error e
      | .ok out =>
          .ok ⟨(match c with
                | some p => [(idx, p)]
                | none => []) ++ out.yields,
               out.finalIdx, out.finalPending⟩ := by
  rw [genLoop_entry, if_neg (by simp [hq]), hdf]

/-- Unfolding of `genRun` at a record line. -/
theorem genRun_entry (cfg : CC3MConfig) (df : SideTable) (lang : String)
    (past : List Line) (r : StreamRec) (fs : List Line) (idx : Int)
    (c : Option CRecord) :
    genRun cfg df lang past (.entry r :: fs) idx c =
      if r.trg_lang ≠ lang then genRun cfg df lang (.entry r :: past) fs idx c
      else
        match df r.rec_num with
        | none => .error "KeyError"
        | some row =>
          match genRun cfg df lang (.entry r :: past) fs (idx + 1)
              (some (mkCData cfg (idx + 1) row.2 r)) with
          | .error e => .error e
          | .ok (out, p', f') =>
              .ok (⟨(match c with
                     | some p => [(idx, p)]
                     | none => []) ++ out.yields,
                    out.finalIdx, out.finalPending⟩, p', f') := rfl

/-- The identifier of the pending record at entry to the loop (yielded first,
when one is pending). -/
def pendIds (idx : Int) : Option CRecord → List Int
  | some _ => [idx]
  | none => []

theorem outIds_mk (ys : List (Int × CRecord)) (fi : Int) (fp : Option CRecord) :
    outIds ⟨ys, fi, fp⟩ = ys.map Prod.fst ++ pendIds fi fp := by
  cases fp <;> simp [outIds, outputs, pendIds]

/-- Master characterization of one successful run of the generator loop:
the final index advances by the number of accepted records, the pending slot
is filled iff something was pending or accepted, the produced identifiers are
the pending one followed by `idx+1, ..., idx+k`, and every yielded key is
strictly below the final (returned) index. -/
theorem genLoop_ok_spec (cfg : CC3MConfig) (df : SideTable) (lang : String)
    (lines : List Line) :
    ∀ (idx : Int) (c : Option CRecord) (g : GenOut),
    genLoop cfg df lang lines idx c = .ok g →
      g.finalIdx = idx + (acceptedRecs lang lines).length ∧
      (g.finalPending.isSome ↔ (c.isSome ∨ 0 < (acceptedRecs lang lines).length)) ∧
      outIds g = pendIds idx c ++ idsFrom (idx + 1) (acceptedRecs lang lines).length ∧
      (∀ x ∈ g.yields.map Prod.fst, x < g.finalIdx) := by
  induction lines with
  | nil =>
    intro idx c g hg
    cases hg
    cases c <;> simp [acceptedRecs_nil, outIds_mk, pendIds, idsFrom_zero]
  | cons l ls ih =>
    intro idx c g hg
    cases l with
    | blank =>
      cases hg
      cases c <;> simp [acceptedRecs_blank, outIds_mk, pendIds, idsFrom_zero]
    | entry r =>
      rw [genLoop_entry] at hg
      by_cases h : r.trg_lang = lang
      · simp only [h, ne_eq, not_true_eq_false, if_false] at hg
        cases hdf : df r.rec_num with
        | none => rw [hdf] at hg; exact absurd hg (by simp)
        | some row =>
          rw [hdf] at hg
          simp only at hg
          cases hrec : genLoop cfg df lang ls (idx + 1)
              (some (mkCData cfg (idx + 1) row.2 r)) with
          | error e => rw [hrec] at hg; exact absurd hg (by simp)
          | ok out =>
            rw [hrec] at hg
            simp only [Except.ok.injEq] at hg
            obtain ⟨h1, h2, h3, h4⟩ := ih (idx + 1) (some (mkCData cfg (idx + 1) row.2 r)) out hrec
            subst hg
            refine ⟨?_, ?_, ?_, ?_⟩
            · simp only [acceptedRecs_entry, h, if_true, List.length_cons] at h1 ⊢
              rw [h1]; push_cast; ring
            · simp only [acceptedRecs_entry, h, if_true, List.length_cons]
              simp only [h2, Option.isSome_some]
              simp
            · simp only [acceptedRecs_entry, h, if_true, List.length_cons]
              rw [outIds_mk]
              rw [outIds_mk] at h3
              rw [idsFrom_succ]
              cases c <;> simp only [pendIds] at h3 ⊢ <;>
                simp [List.map_append, h3, pendIds]
            · intro x hx
              simp only [List.map_append, List.mem_append] at hx
              have hlt : x < out.finalIdx := by
                rcases hx with hx | hx
                · cases c with
                  | none => simp at hx
                  | some p =>
                    simp at hx
                    subst hx
                    omega
                · exact h4 x hx
              exact hlt
      · simp only [h, ne_eq, not_false_eq_true, if_true] at hg
        obtain ⟨h1, h2, h3, h4⟩ := ih idx c g hg
        simp only [acceptedRecs_entry, h, if_false]
        exact ⟨h1, h2, h3, h4⟩

/-- The handler-passing run is the loop over the unread suffix, and it always
leaves the handler rewound to the beginning of the whole stream. -/
theorem genRun_eq_genLoop (cfg : CC3MConfig) (df : SideTable) (lang : String)
    (future : List Line) :
    ∀ (past : List Line) (idx : Int) (c : Option CRecord),
    genRun cfg df lang past future idx c =
      (genLoop cfg df lang future idx c).map
        (fun g => (g, [], past.reverse ++ future)) := by
  induction future with
  | nil => intro past idx c; simp [genRun, genLoop, Except.map]
  | cons l fs ih =>
    intro past idx c
    cases l with
    | blank => simp [genRun, genLoop, Except.map]
    | entry r =>
      rw [genRun_entry, genLoop_entry]
      by_cases h : r.trg_lang = lang
      · simp only [h, ne_eq, not_true_eq_false, if_false]
        cases hdf : df r.rec_num with
        | none => simp [Except.map]
        | some row =>
          simp only
          rw [ih]
          cases hrec : genLoop cfg df lang fs (idx + 1)
              (some (mkCData cfg (idx + 1) row.2 r)) with
          | error e => simp [Except.map]
          | ok out => simp [Except.map]
      · simp only [h, ne_eq, not_false_eq_true, if_true]
        rw [ih]
        simp

/-! ## CC3M-35L: claim theorems

Concrete data used by the scenario claims and the witnesses. -/

/-- Side table with 1-based positions 1 -> (capA, urlA), 2 -> (capB, urlB). -/
def dfAB : SideTable := fun n =>
  if n = 1 then some ("capA", "urlA")
  else if n = 2 then some ("capB", "urlB")
  else none

def cfgSrcVie : CC3MConfig := ⟨.source, "cc3m_35l_vie"⟩

def cfgImtextVie : CC3MConfig := ⟨.seacrowd_imtext, "cc3m_35l_vie"⟩

/-- One record matching the requested language at positional key 1, and one
record of a non-matching language. -/
def streamAB : List Line :=
  [.entry ⟨"vi", 1, "capA", "transA", "backA"⟩,
   .entry ⟨"xx", 2, "capB", "transB", "backB"⟩]

/-- Side table of the end-to-end spec scenario (1-indexed rows of
["cat on mat", "http://x/1"] and ["dog on rug", "http://x/2"]). -/
def dfVi : SideTable := fun n =>
  if n = 1 then some ("cat on mat", "http://x/1")
  else if n = 2 then some ("dog on rug", "http://x/2")
  else none

def streamVi : List Line :=
  [.entry ⟨"vi", 2, "dog on rug", "con chó trên tấm thảm", "dog on the rug"⟩,
   .entry ⟨"th", 1, "cat on mat", "x", "y"⟩]

/-- C1: with side table {1: (capA, urlA), 2: (capB, urlB)}, a stream holding
one record matching the requested language "vi" at positional key 1 and one
record of a non-matching language, the join produces exactly one output
record, referencing urlA, with identifier "0" (and key 0); and in the
end-to-end scenario of the spec (requested language "vi", accepted record at
position 2) the single output is id "0", image reference "http://x/2", text
"con chó trên tấm thảm".  The language the generator filters on is
LANGUAGE_MAP["vie"] = "vi", as `_split_generators` computes it. -/
theorem cc3m_join_single_output :
    (genLoop cfgSrcVie dfAB ((LANGUAGE_MAP.lookup "vie").getD "") streamAB (-1) none).map
        outputs =
      .ok [(0, .source ⟨"0", "urlA", "en", "capA", "vie", "transA", "backA"⟩)] ∧
    (genLoop cfgImtextVie dfVi ((LANGUAGE_MAP.lookup "vie").getD "") streamVi (-1) none).map
        outputs =
      .ok [(0, .imtext ⟨"0", ["http://x/2"], "con chó trên tấm thảm", none, none⟩)] :=
  ⟨rfl, rfl⟩

/-- C2: over any stream and side table, a successful run of the generator
started (as in the code) at index -1 with no pending record produces records
whose identifiers — the yielded keys followed by the key of the final returned
marker — are exactly 0, 1, ..., k-1, where k is the number of stream records
accepted by the language filter: no gaps, no repeats, never reused. -/
theorem cc3m_output_ids_dense (cfg : CC3MConfig) (df : SideTable) (lang : String)
    (lines : List Line) (g : GenOut)
    (h : genLoop cfg df lang lines (-1) none = .ok g) :
    outIds g = (List.range (acceptedRecs lang lines).length).map
      (fun n : Nat => (n : Int)) := by
  obtain ⟨-, -, h3, -⟩ := genLoop_ok_spec cfg df lang lines (-1) none g h
  rw [h3]
  simp only [pendIds, List.nil_append]
  unfold idsFrom
  refine List.map_congr_left fun j _ => ?_
  omega

/-- Witness for C2 at a concrete stream with two accepted records (one
non-matching record interleaved). -/
def streamABC : List Line :=
  [.entry ⟨"vi", 1, "capA", "transA", "backA"⟩,
   .entry ⟨"xx", 2, "capB", "transB", "backB"⟩,
   .entry ⟨"vi", 2, "capB", "transB2", "backB2"⟩]

theorem cc3m_output_ids_dense_witness :
    outIds
        ⟨[(0, .source ⟨"0", "urlA", "en", "capA", "vie", "transA", "backA"⟩)], 1,
          some (.source ⟨"1", "urlB", "en", "capB", "vie", "transB2", "backB2"⟩)⟩ =
      (List.range (acceptedRecs "vi" streamABC).length).map
        (fun n : Nat => (n : Int)) :=
  cc3m_output_ids_dense cfgSrcVie dfAB "vi" streamABC _ rfl

/-- C5: a stream record whose target-language tag differs from the requested
language is skipped entirely: deleting it from the stream changes nothing —
it contributes no output, advances no identifier and never occupies the
pending slot, whatever the surrounding stream, starting index and pending
record are. -/
theorem cc3m_nonmatching_skipped (cfg : CC3MConfig) (df : SideTable)
    (lang : String) (r : StreamRec) (pre post : List Line) (idx : Int)
    (c : Option CRecord) (h : r.trg_lang ≠ lang) :
    genLoop cfg df lang (pre ++ Line.entry r :: post) idx c =
      genLoop cfg df lang (pre ++ post) idx c := by
  induction pre generalizing idx c with
  | nil =>
    rw [List.nil_append, List.nil_append, genLoop_entry, if_pos h]
  | cons l ls ih =>
    cases l with
    | blank => rfl
    | entry q =>
      rw [List.cons_append, List.cons_append]
      by_cases hq : q.trg_lang = lang
      · cases hdf : df q.rec_num with
        | none =>
          rw [genLoop_entry_miss cfg df lang q _ idx c hq hdf,
            genLoop_entry_miss cfg df lang q _ idx c hq hdf]
        | some row =>
          rw [genLoop_entry_acc cfg df lang q _ idx c row hq hdf,
            genLoop_entry_acc cfg df lang q _ idx c row hq hdf, ih]
      · rw [genLoop_entry, genLoop_entry, if_pos hq, if_pos hq]
        exact ih idx c

theorem cc3m_nonmatching_skipped_witness :
    genLoop cfgSrcVie dfAB "vi"
        ([Line.entry ⟨"vi", 1, "capA", "transA", "backA"⟩] ++
          Line.entry ⟨"xx", 2, "capB", "transB", "backB"⟩ ::
            [Line.entry ⟨"vi", 2, "capB", "transB2", "backB2"⟩]) (-1) none =
      genLoop cfgSrcVie dfAB "vi"
        ([Line.entry ⟨"vi", 1, "capA", "transA", "backA"⟩] ++
          [Line.entry ⟨"vi", 2, "capB", "transB2", "backB2"⟩]) (-1) none :=
  cc3m_nonmatching_skipped cfgSrcVie dfAB "vi" ⟨"xx", 2, "capB", "transB", "backB"⟩
    _ _ (-1) none (by decide)

/-- C9: a blank (or whitespace-only, hence stripped-empty) line anywhere in
the stream makes generation terminate there exactly as at end-of-stream: the
run over `pre ++ blank :: post` equals the run over `pre` alone — the pending
record is returned the same way and nothing after the first blank line is ever
emitted, no matter what well-formed records follow. -/
theorem cc3m_blank_line_ends_generation (cfg : CC3MConfig) (df : SideTable)
    (lang : String) (pre post : List Line) (idx : Int) (c : Option CRecord) :
    genLoop cfg df lang (pre ++ Line.blank :: post) idx c =
      genLoop cfg df lang pre idx c := by
  induction pre generalizing idx c with
  | nil => rfl
  | cons l ls ih =>
    cases l with
    | blank => rfl
    | entry q =>
      rw [List.cons_append]
      by_cases hq : q.trg_lang = lang
      · cases hdf : df q.rec_num with
        | none =>
          rw [genLoop_entry_miss cfg df lang q _ idx c hq hdf,
            genLoop_entry_miss cfg df lang q _ idx c hq hdf]
        | some row =>
          rw [genLoop_entry_acc cfg df lang q _ idx c row hq hdf,
            genLoop_entry_acc cfg df lang q _ idx c row hq hdf, ih]
      · rw [genLoop_entry, genLoop_entry, if_pos hq, if_pos hq]
        exact ih idx c

/-- C6: on end-of-stream (a blank read, including the empty read past the last
line) the stream handler is rewound to position 0 — the final handler state
exposes the whole stream from its beginning — and the last pending record
together with the current identifier is the returned final marker rather than
one of the yields: at most one record is ever pending, exactly one accepted
record is withheld from the yields (`yields.length + 1 = k` whenever `k > 0`,
and the pending slot is empty exactly when no record was accepted), and the
final marker never occurs among the yielded pairs. -/
theorem cc3m_end_of_stream_reset (cfg : CC3MConfig) (df : SideTable)
    (lang : String) (stream : List Line) (g : GenOut) (p' f' : List Line)
    (h : genRun cfg df lang [] stream (-1) none = .ok (g, p', f')) :
    p' = [] ∧ f' = stream ∧
    g.finalIdx = ((acceptedRecs lang stream).length : Int) - 1 ∧
    (g.finalPending.isSome ↔ 0 < (acceptedRecs lang stream).length) ∧
    g.yields.length + g.finalPending.toList.length =
      (acceptedRecs lang stream).length ∧
    (∀ r, g.finalPending = some r → (g.finalIdx, r) ∉ g.yields) := by
  rw [genRun_eq_genLoop] at h
  cases hg : genLoop cfg df lang stream (-1) none with
  | error e => rw [hg] at h; exact absurd h (by simp [Except.map])
  | ok g0 =>
    rw [hg] at h
    simp only [Except.map, List.reverse_nil, List.nil_append, Except.ok.injEq,
      Prod.mk.injEq] at h
    obtain ⟨hgg, hp, hf⟩ := h
    subst hgg
    obtain ⟨h1, h2, h3, h4⟩ := genLoop_ok_spec cfg df lang stream (-1) none g0 hg
    have hlen : (outIds g0).length = (acceptedRecs lang stream).length := by
      rw [h3]
      simp [pendIds, idsFrom]
    have hout : (outputs g0).length = (acceptedRecs lang stream).length := by
      have h5 := hlen
      rwa [outIds, List.length_map] at h5
    refine ⟨hp.symm, hf.symm, by omega, ?_, ?_, ?_⟩
    · rw [h2]
      simp
    · cases hfp : g0.finalPending with
      | none =>
        simp only [outputs, hfp, List.append_nil] at hout
        simpa using hout
      | some r =>
        simp only [outputs, hfp, List.length_append, List.length_singleton] at hout
        simpa using hout
    · intro r hr hmem
      have hin : g0.finalIdx ∈ g0.yields.map Prod.fst :=
        List.mem_map_of_mem Prod.fst hmem
      exact absurd (h4 _ hin) (lt_irrefl _)

/-- The output of the generator on `streamABC` (two accepted records, one
skipped), used as concrete data by the witnesses. -/
def genOutABC : GenOut :=
  ⟨[(0, .source ⟨"0", "urlA", "en", "capA", "vie", "transA", "backA"⟩)], 1,
   some (.source ⟨"1", "urlB", "en", "capB", "vie", "transB2", "backB2"⟩)⟩

theorem cc3m_end_of_stream_reset_witness :
    ([] : List Line) = [] ∧ streamABC = streamABC ∧
    genOutABC.finalIdx = ((acceptedRecs "vi" streamABC).length : Int) - 1 ∧
    (genOutABC.finalPending.isSome ↔ 0 < (acceptedRecs "vi" streamABC).length) ∧
    genOutABC.yields.length + genOutABC.finalPending.toList.length =
      (acceptedRecs "vi" streamABC).length ∧
    (∀ r, genOutABC.finalPending = some r →
      (genOutABC.finalIdx, r) ∉ genOutABC.yields) :=
  cc3m_end_of_stream_reset cfgSrcVie dfAB "vi" streamABC genOutABC [] streamABC rfl

/-- C7: after a run to full exhaustion (which left the handler rewound to the
beginning), running the generator again over the handler it returned produces
the very same result — identical yields, identical keys, identical final
marker: the restart is idempotent. -/
theorem cc3m_restart_idempotent (cfg : CC3MConfig) (df : SideTable)
    (lang : String) (stream : List Line) (g : GenOut) (p' f' : List Line)
    (h : genRun cfg df lang [] stream (-1) none = .ok (g, p', f')) :
    genRun cfg df lang p' f' (-1) none =
      genRun cfg df lang [] stream (-1) none := by
  rw [genRun_eq_genLoop] at h
  cases hg : genLoop cfg df lang stream (-1) none with
  | error e => rw [hg] at h; exact absurd h (by simp [Except.map])
  | ok g0 =>
    rw [hg] at h
    simp only [Except.map, List.reverse_nil, List.nil_append, Except.ok.injEq,
      Prod.mk.injEq] at h
    obtain ⟨-, hp, hf⟩ := h
    rw [← hp, ← hf]

theorem cc3m_restart_idempotent_witness :
    genRun cfgSrcVie dfAB "vi" [] streamABC (-1) none =
      genRun cfgSrcVie dfAB "vi" [] streamABC (-1) none :=
  cc3m_restart_idempotent cfgSrcVie dfAB "vi" streamABC genOutABC [] streamABC rfl

/-! ## CC3M-35L: per-row image fetch (`CC3M35L.fill_img_path`)

A row of the `gcc_df` frame carries its pandas index (`idx`, the value
`iterrows` hands out and the one appended to the exceptions list), the caption
and the image URL.  The download attempt
(`datasets.DownloadManager().download(row["img_url"])`) is a function from the
URL to `Except`: `.ok path` when it returns, `.error _` when it raises.  The
field assignments inside the loop act on per-iteration copies produced by
`iterrows` and do not alter the returned frame, so the function's first result
is the query result itself. -/
structure GccRow where
  idx : Nat
  caption : String
  img_url : String
deriving DecidableEq, Repr

/-- The `try/except` loop of `fill_img_path`: one download attempt per matched
row, a failure appending that row's index and moving on to the next row. -/
def fillExceptions (dl : String → Except String String) : List GccRow → List Nat
  | [] => []
  | r :: rs =>
    match dl r.img_url with
    | .ok _ => fillExceptions dl rs
    | .error _ => r.idx :: fillExceptions dl rs

/-- `CC3M35L.fill_img_path`: select the rows whose caption equals the stream
record's `caption_tokenized`, attempt one download per selected row, and
return the selected rows together with the exceptions list. -/
def fill_img_path (df : List GccRow) (line : StreamRec)
    (dl : String → Except String String) : List GccRow × List Nat :=
  let selected_row := df.filter fun r => r.caption == line.caption_tokenized
  (selected_row, fillExceptions dl selected_row)

theorem fillExceptions_eq (dl : String → Except String String)
    (rows : List GccRow) :
    fillExceptions dl rows =
      (rows.filter fun r => !(dl r.img_url).isOk).map GccRow.idx := by
  induction rows with
  | nil => rfl
  | cons r rs ih =>
    rw [fillExceptions]
    cases hdl : dl r.img_url with
    | ok v => simp [List.filter_cons, hdl, Except.isOk, Except.toBool, ih]
    | error e => simp [List.filter_cons, hdl, Except.isOk, Except.toBool, ih]

/-- C8: a download failure inside `fill_img_path` never propagates and is
never retried: the function always returns a pair — the matched rows, and an
exceptions list holding exactly the indices of the matched rows whose single
download attempt failed, in order.  Rows beyond a failing one are still
processed (they appear in the matched result and contribute their own entry
when they too fail). -/
theorem fill_img_path_catches_failures (df : List GccRow) (line : StreamRec)
    (dl : String → Except String String) :
    (fill_img_path df line dl).1 =
      df.filter (fun r => r.caption == line.caption_tokenized) ∧
    (fill_img_path df line dl).2 =
      (((fill_img_path df line dl).1).filter fun r => !(dl r.img_url).isOk).map
        GccRow.idx :=
  ⟨rfl, fillExceptions_eq dl _⟩

/-! ## Indonesian-Madurese Bible translation loader

`_split_generators` walks the corpus lines of all .txt files (a single `id`
counter running over every line, blank ones included) and, for every line
other than the bare newline string, appends a row built from
`line.split("\t")[0]` and `line.split("\t")[1]` — the latter raising
IndexError when the line has no tab.  Lines are `List Char` here because the
claims are about character-level splitting. -/

structure MadRow where
  src : List Char
  tgt : List Char
  id : Nat
deriving DecidableEq, Repr

/-- The accumulation loop of `_split_generators` over the concatenated lines
of every input file, with the running `id` counter; `.error` is the unhandled
IndexError aborting the whole split before any record is generated. -/
def madBuild : List (List Char) → Nat → Except String (List MadRow)
  | [], _ => .ok []
  | line :: rest, id =>
    if line = ['\n'] then madBuild rest (id + 1)
    else
      match pySplitOn '\t' line with
      | p0 :: p1 :: _ =>
        match madBuild rest (id + 1) with
        | .error e => .error e
        | .ok rows => .ok (⟨p0, p1, id⟩ :: rows)
      | _ => .error "IndexError"

theorem pySplitOn_ne_nil (sep : Char) (s : List Char) : pySplitOn sep s ≠ [] := by
  induction s with
  | nil => simp [pySplitOn]
  | cons c rest ih =>
    rw [pySplitOn]
    cases hp : pySplitOn sep rest with
    | nil => exact absurd hp ih
    | cons h t =>
      by_cases hc : c = sep <;> simp [hc]

theorem length_pySplitOn (sep : Char) (s : List Char) :
    (pySplitOn sep s).length = s.count sep + 1 := by
  induction s with
  | nil => rfl
  | cons c rest ih =>
    rw [pySplitOn]
    cases hp : pySplitOn sep rest with
    | nil => exact absurd hp (pySplitOn_ne_nil sep rest)
    | cons h t =>
      rw [hp] at ih
      simp only [List.length_cons] at ih
      by_cases hc : c = sep
      · subst hc
        simp [List.count_cons_self]
        omega
      · simp [hc, List.count_cons_of_ne (Ne.symm hc)]
        omega

/-- A line has at least two tab-split parts iff it contains a tab. -/
theorem two_parts_iff_tab (sep : Char) (s : List Char) :
    2 ≤ (pySplitOn sep s).length ↔ sep ∈ s := by
  rw [length_pySplitOn]
  constructor
  · intro h
    exact List.count_pos_iff.mp (by omega)
  · intro h
    have := List.count_pos_iff.mpr h
    omega

/-- Either the split builder succeeds or it fails with IndexError. -/
theorem madBuild_ok_or_indexError (lines : List (List Char)) :
    ∀ id : Nat, (∃ rows, madBuild lines id = .ok rows) ∨
      madBuild lines id = .error "IndexError" := by
  induction lines with
  | nil => intro id; exact .inl ⟨[], rfl⟩
  | cons line rest ih =>
    intro id
    rw [madBuild]
    by_cases hb : line = ['\n']
    · simpa [hb] using ih (id + 1)
    · rw [if_neg hb]
      cases hp : pySplitOn '\t' line with
      | nil => exact absurd hp (pySplitOn_ne_nil '\t' line)
      | cons p0 ps =>
        cases ps with
        | nil => exact .inr rfl
        | cons p1 ps' =>
          rcases ih (id + 1) with ⟨rows, hr⟩ | hr
          · exact .inl ⟨⟨p0, p1, id⟩ :: rows, by rw [hr]⟩
          · exact .inr (by rw [hr])

theorem madBuild_cons_blank (line : List Char) (rest : List (List Char))
    (id : Nat) (hb : line = ['\n']) :
    madBuild (line :: rest) id = madBuild rest (id + 1) := by
  rw [madBuild, if_pos hb]

theorem madBuild_cons_one (line : List Char) (rest : List (List Char))
    (id : Nat) (p0 : List Char) (hb : line ≠ ['\n'])
    (hp : pySplitOn '\t' line = [p0]) :
    madBuild (line :: rest) id = .error "IndexError" := by
  rw [madBuild, if_neg hb, hp]

theorem madBuild_cons_two (line : List Char) (rest : List (List Char))
    (id : Nat) (p0 p1 : List Char) (ps : List (List Char))
    (hb : line ≠ ['\n']) (hp : pySplitOn '\t' line = p0 :: p1 :: ps) :
    madBuild (line :: rest) id =
      match madBuild rest (id + 1) with
      | .error e => .error e
      | .ok rows => .ok (⟨p0, p1, id⟩ :: rows) := by
  rw [madBuild, if_neg hb, hp]

/-- The split builder succeeds exactly when every line other than the bare
newline contains a tab. -/
theorem madBuild_ok_iff (lines : List (List Char)) :
    ∀ id : Nat, (∃ rows, madBuild lines id = .ok rows) ↔
      ∀ line ∈ lines, line ≠ ['\n'] → '\t' ∈ line := by
  induction lines with
  | nil => intro id; simp [madBuild]
  | cons line rest ih =>
    intro id
    by_cases hb : line = ['\n']
    · rw [madBuild_cons_blank line rest id hb, ih (id + 1)]
      constructor
      · intro h l hl hne
        rcases List.mem_cons.mp hl with rfl | hl
        · exact absurd hb hne
        · exact h l hl hne
      · intro h l hl hne
        exact h l (List.mem_cons_of_mem _ hl) hne
    · cases hp : pySplitOn '\t' line with
      | nil => exact absurd hp (pySplitOn_ne_nil _ _)
      | cons p0 ps =>
        cases ps with
        | nil =>
          rw [madBuild_cons_one line rest id p0 hb hp]
          constructor
          · rintro ⟨rows, hr⟩
            exact absurd hr (by simp)
          · intro h
            exfalso
            have htab : '\t' ∈ line := h line (List.mem_cons_self _ _) hb
            have h2 := (two_parts_iff_tab '\t' line).mpr htab
            rw [hp] at h2
            simp at h2
        | cons p1 ps' =>
          rw [madBuild_cons_two line rest id p0 p1 ps' hb hp]
          have htab : '\t' ∈ line :=
            (two_parts_iff_tab '\t' line).mp (by rw [hp]; simp)
          constructor
          · rintro ⟨rows, hr⟩ l hl hne
            rcases List.mem_cons.mp hl with rfl | hl
            · exact htab
            · cases hrec : madBuild rest (id + 1) with
              | error e => rw [hrec] at hr; exact absurd hr (by simp)
              | ok rows' => exact (ih (id + 1)).mp ⟨rows', hrec⟩ l hl hne
          · intro h
            obtain ⟨rows', hrec⟩ :=
              (ih (id + 1)).mpr fun l hl hne => h l (List.mem_cons_of_mem _ hl) hne
            exact ⟨⟨p0, p1, id⟩ :: rows', by rw [hrec]⟩

/-- C10: in `_split_generators` of the Indonesian-Madurese loader, the whole
split aborts with an unhandled IndexError — before any record is generated —
exactly when some corpus line other than the bare newline string contains no
tab character; equivalently, the build succeeds iff every such line contains
at least one tab, the implicit precondition of the claim.  (The `id` counter's
starting value is irrelevant to success.) -/
theorem mad_split_tab_precondition (lines : List (List Char)) (id : Nat) :
    ((∃ rows, madBuild lines id = .ok rows) ↔
      ∀ line ∈ lines, line ≠ ['\n'] → '\t' ∈ line) ∧
    (madBuild lines id = .error "IndexError" ↔
      ∃ line ∈ lines, line ≠ ['\n'] ∧ '\t' ∉ line) := by
  refine ⟨madBuild_ok_iff lines id, ?_, ?_⟩
  · intro h
    by_contra hno
    push_neg at hno
    obtain ⟨rows, hrows⟩ := (madBuild_ok_iff lines id).mpr hno
    rw [hrows] at h
    exact absurd h (by simp)
  · rintro ⟨l, hl, hne, hnot⟩
    rcases madBuild_ok_or_indexError lines id with ⟨rows, hr⟩ | hr
    · exact absurd ((madBuild_ok_iff lines id).mp ⟨rows, hr⟩ l hl hne) hnot
    · exact hr

/-- Python `str.strip()`: drop leading and trailing whitespace. -/
def pyStrip (s : List Char) : List Char :=
  ((s.dropWhile Char.isWhitespace).reverse.dropWhile Char.isWhitespace).reverse

/-- Example of the Madurese source schema ({"id", "src", "tgt"}); the "id"
field carries the value stored in the jsonl row, not the yield key. -/
structure MadSourceEx where
  id : Nat
  src : List Char
  tgt : List Char
deriving DecidableEq, Repr

/-- Example of the Madurese seacrowd_t2t schema. -/
structure MadT2TEx where
  id : Nat
  text_1 : List Char
  text_2 : List Char
  text_1_name : String
  text_2_name : String
deriving DecidableEq, Repr

/-- The source-schema branch of the Madurese `_generate_examples`: a counter
`i` starting at 0, one yield per jsonl row, `i += 1` after each. -/
def madGenSourceFrom (i : Nat) : List MadRow → List (Nat × MadSourceEx)
  | [] => []
  | r :: rs => (i, ⟨r.id, r.src, r.tgt⟩) :: madGenSourceFrom (i + 1) rs

def madGenSource (rows : List MadRow) : List (Nat × MadSourceEx) :=
  madGenSourceFrom 0 rows

/-- The seacrowd_t2t branch: same counter, text fields stripped, language
names "ind"/"mad". -/
def madGenT2TFrom (i : Nat) : List MadRow → List (Nat × MadT2TEx)
  | [] => []
  | r :: rs =>
      (i, ⟨r.id, pyStrip r.src, pyStrip r.tgt, "ind", "mad"⟩) ::
        madGenT2TFrom (i + 1) rs

def madGenT2T (rows : List MadRow) : List (Nat × MadT2TEx) :=
  madGenT2TFrom 0 rows

theorem madGenSourceFrom_keys (rows : List MadRow) :
    ∀ i : Nat, (madGenSourceFrom i rows).map Prod.fst =
      List.range' i rows.length := by
  induction rows with
  | nil => intro i; rfl
  | cons r rs ih =>
    intro i
    rw [madGenSourceFrom, List.map_cons, ih (i + 1), List.length_cons,
      List.range'_succ i rs.length 1]

theorem madGenT2TFrom_keys (rows : List MadRow) :
    ∀ i : Nat, (madGenT2TFrom i rows).map Prod.fst =
      List.range' i rows.length := by
  induction rows with
  | nil => intro i; rfl
  | cons r rs ih =>
    intro i
    rw [madGenT2TFrom, List.map_cons, ih (i + 1), List.length_cons,
      List.range'_succ i rs.length 1]

/-! ## ViCon loader (vicon.py)

One parsed data row of the word-pair file, as `_generate_examples` accesses it
through the header columns Word1/Word2/Relation. -/
structure ViConRow where
  Word1 : String
  Word2 : String
  Relation : String
deriving DecidableEq, Repr

inductive ViConSchema where
  | source
  | seacrowd_pairs
deriving DecidableEq, Repr

/-- One binding step of a Python dict literal: a repeated key keeps its first
position and takes the later value; a new key is appended. -/
def dictInsert (d : List (String × String)) (k : String) (v : String) :
    List (String × String) :=
  if d.any fun kv => kv.1 == k then
    d.map fun kv => if kv.1 == k then (kv.1, v) else kv
  else d ++ [(k, v)]

/-- Evaluation of a Python dict literal, binding its key/value pairs left to
right. -/
def pyDict (kvs : List (String × String)) : List (String × String) :=
  kvs.foldl (fun d kv => dictInsert d kv.1 kv.2) []

/-- The seacrowd_pairs example dict of vicon.py lines 176-181, with its
duplicated "text_1" key, exactly as the literal is written:
{"id": str(index), "text_1": str(row["Word1"]), "text_1": str(row["Word2"]),
 "label": str(row["Relation"])}. -/
def viconPairsExample (index : Nat) (row : ViConRow) : List (String × String) :=
  pyDict
    [("id", toString index), ("text_1", row.Word1), ("text_1", row.Word2),
     ("label", row.Relation)]

inductive ViConEx where
  | source (row : ViConRow) : ViConEx
  | pairs (d : List (String × String)) : ViConEx
deriving DecidableEq, Repr

/-- The per-row example of `ViConDataset._generate_examples`: `row.to_dict()`
under the source schema, the duplicated-key dict under seacrowd_pairs. -/
def viconExample (schema : ViConSchema) (index : Nat) (row : ViConRow) : ViConEx :=
  match schema with
  | .source => .source row
  | .seacrowd_pairs => .pairs (viconPairsExample index row)

/-- `for index, row in df.iterrows(): ... yield index, example` — the pandas
RangeIndex hands out 0, 1, 2, ... over the data rows (the header row was
consumed building the frame). -/
def viconGenFrom (schema : ViConSchema) (i : Nat) :
    List ViConRow → List (Nat × ViConEx)
  | [] => []
  | r :: rs => (i, viconExample schema i r) :: viconGenFrom schema (i + 1) rs

def viconGen (schema : ViConSchema) (rows : List ViConRow) :
    List (Nat × ViConEx) :=
  viconGenFrom schema 0 rows

theorem viconGenFrom_keys (schema : ViConSchema) (rows : List ViConRow) :
    ∀ i : Nat, (viconGenFrom schema i rows).map Prod.fst =
      List.range' i rows.length := by
  induction rows with
  | nil => intro i; rfl
  | cons r rs ih =>
    intro i
    rw [viconGenFrom, List.map_cons, ih (i + 1), List.length_cons,
      List.range'_succ i rs.length 1]

/-- C4 (counterexample): for the input row Word1=hot, Word2=cold,
Relation=ANT under the seacrowd_pairs schema, the emitted dict does NOT map
the first and the second text field to the same value: "text_1" holds "cold",
but there is no "text_2" key at all — the duplicated "text_1" binding
overwrote the first word and nothing ever bound "text_2". -/
theorem vicon_pairs_counterexample :
    (viconPairsExample 0 ⟨"hot", "cold", "ANT"⟩).lookup "text_1" = some "cold" ∧
    (viconPairsExample 0 ⟨"hot", "cold", "ANT"⟩).lookup "text_2" = none ∧
    ¬ ∃ v, (viconPairsExample 0 ⟨"hot", "cold", "ANT"⟩).lookup "text_1" = some v ∧
        (viconPairsExample 0 ⟨"hot", "cold", "ANT"⟩).lookup "text_2" = some v := by
  refine ⟨rfl, rfl, ?_⟩
  rintro ⟨v, -, h2⟩
  have hn : (viconPairsExample 0 ⟨"hot", "cold", "ANT"⟩).lookup "text_2" = none := rfl
  rw [hn] at h2
  exact Option.noConfusion h2

/-- C4 (amended): for every ViCon input row under the seacrowd_pairs schema,
the emitted record's single text field "text_1" is overwritten with Word2
before emission — Word1 is discarded — and the record carries no "text_2" key
at all; "id" and "label" are bound normally. -/
theorem vicon_pairs_overwrites_word1 (index : Nat) (row : ViConRow) :
    (viconPairsExample index row).lookup "text_1" = some row.Word2 ∧
    (viconPairsExample index row).lookup "text_2" = none ∧
    (viconPairsExample index row).lookup "id" = some (toString index) ∧
    (viconPairsExample index row).lookup "label" = some row.Relation :=
  ⟨rfl, rfl, rfl, rfl⟩

/-! ## UIT-ViCoV19QA loader (uit_vicov19qa.py)

One parsed csv row: `exam[0]` (the source-file id), `exam[1]` (the question)
and `exam[2:]` (the answers). -/
structure UitRow where
  id : String
  question : String
  answers : List String
deriving DecidableEq, Repr

inductive UitSchema where
  | source
  | seacrowd_qa
deriving DecidableEq, Repr

structure UitSourceEx where
  id : String
  question : String
  answers : List String
deriving DecidableEq, Repr

structure UitQAEx where
  id : String
  question_id : String
  document_id : String
  question : String
  type : Option String
  choices : List String
  context : Option String
  answer : List String
  meta : List (String × String)
deriving DecidableEq, Repr

inductive UitEx where
  | source (e : UitSourceEx) : UitEx
  | qa (e : UitQAEx) : UitEx
deriving DecidableEq, Repr

/-- The per-row example of `ViHealthQADataset._generate_examples`: under the
source schema the id field is the source-file id; under seacrowd_qa the id and
document_id are `str(eid)` (the row position) and question_id is the
source-file id. -/
def uitExample (schema : UitSchema) (eid : Nat) (row : UitRow) : UitEx :=
  match schema with
  | .source => .source ⟨row.id, row.question, row.answers⟩
  | .seacrowd_qa =>
      .qa ⟨toString eid, row.id, toString eid, row.question, none, [], none,
           row.answers, []⟩

/-- `for eid, exam in raw_examples.iterrows(): yield eid, ...` — the pandas
RangeIndex of `pd.read_csv` hands out 0, 1, 2, ... -/
def uitGenFrom (schema : UitSchema) (i : Nat) : List UitRow → List (Nat × UitEx)
  | [] => []
  | r :: rs => (i, uitExample schema i r) :: uitGenFrom schema (i + 1) rs

def uitGen (schema : UitSchema) (rows : List UitRow) : List (Nat × UitEx) :=
  uitGenFrom schema 0 rows

theorem uitGenFrom_keys (schema : UitSchema) (rows : List UitRow) :
    ∀ i : Nat, (uitGenFrom schema i rows).map Prod.fst =
      List.range' i rows.length := by
  induction rows with
  | nil => intro i; rfl
  | cons r rs ih =>
    intro i
    rw [uitGenFrom, List.map_cons, ih (i + 1), List.length_cons,
      List.range'_succ i rs.length 1]

/-- C3: in every loader of the repository, the keys a generation pass of one
split hands to the framework are pairwise distinct and form the dense
monotonically increasing sequence 0, 1, ..., n-1, independent of any
source-file identifier: the cc3m join renumbers accepted records from 0
(whatever `rec_num` the stream carries), and the Madurese, ViCon and
UIT-ViCoV19QA generators enumerate their rows from 0 under either schema
(whatever id fields the rows carry). -/
theorem loaders_output_keys_dense (cfg : CC3MConfig) (df : SideTable)
    (lang : String) (lines : List Line) (g : GenOut) (madrows : List MadRow)
    (vsch : ViConSchema) (vrows : List ViConRow) (usch : UitSchema)
    (urows : List UitRow)
    (h : genLoop cfg df lang lines (-1) none = .ok g) :
    outIds g = (List.range (acceptedRecs lang lines).length).map
      (fun n : Nat => (n : Int)) ∧
    (madGenSource madrows).map Prod.fst = List.range madrows.length ∧
    (madGenT2T madrows).map Prod.fst = List.range madrows.length ∧
    (viconGen vsch vrows).map Prod.fst = List.range vrows.length ∧
    (uitGen usch urows).map Prod.fst = List.range urows.length := by
  refine ⟨?_, ?_, ?_, ?_, ?_⟩
  · obtain ⟨-, -, h3, -⟩ := genLoop_ok_spec cfg df lang lines (-1) none g h
    rw [h3]
    simp only [pendIds, List.nil_append]
    unfold idsFrom
    refine List.map_congr_left fun j _ => ?_
    omega
  · rw [madGenSource, madGenSourceFrom_keys, List.range_eq_range']
  · rw [madGenT2T, madGenT2TFrom_keys, List.range_eq_range']
  · rw [viconGen, viconGenFrom_keys, List.range_eq_range']
  · rw [uitGen, uitGenFrom_keys, List.range_eq_range']

/-- Concrete rows whose stored id fields are deliberately non-dense. -/
def madRowsEx : List MadRow :=
  [⟨"halo".toList, "ayo".toList, 3⟩, ⟨"dua".toList, "dhua".toList, 7⟩]

def viconRowsEx : List ViConRow := [⟨"hot", "cold", "ANT"⟩, ⟨"big", "large", "SYN"⟩]

def uitRowsEx : List UitRow := [⟨"Q77", "q1?", ["a1"]⟩, ⟨"Q5", "q2?", ["a2", "a3"]⟩]

theorem loaders_output_keys_dense_witness :
    outIds genOutABC = (List.range (acceptedRecs "vi" streamABC).length).map
      (fun n : Nat => (n : Int)) ∧
    (madGenSource madRowsEx).map Prod.fst = List.range madRowsEx.length ∧
    (madGenT2T madRowsEx).map Prod.fst = List.range madRowsEx.length ∧
    (viconGen .seacrowd_pairs viconRowsEx).map Prod.fst =
      List.range viconRowsEx.length ∧
    (uitGen .seacrowd_qa uitRowsEx).map Prod.fst = List.range uitRowsEx.length :=
  loaders_output_keys_dense cfgSrcVie dfAB "vi" streamABC genOutABC madRowsEx
    .seacrowd_pairs viconRowsEx .seacrowd_qa uitRowsEx rfl
